import Mathlib

/-!
Verification development for the NXC static-analysis engine
(`SimpleNXCParser` and friends): a shallow embedding of the
diagnostics code into Lean, together with theorems checking the
engine's specified properties.

Conventions:
* JS strings are modelled as `List Char` (wrapped into `String` at the
  public boundary).
* JS `Map`/`Set` objects are modelled as insertion-ordered association
  lists (`List (String × _)` / `List String`), with `set` updating in
  place and `add` appending when absent, matching JS iteration order.
* Diagnostics keep the fields the properties talk about (message, line,
  column); the `severity`/`source`/`range` fields of the source are
  constants or derived and are omitted.
-/

namespace Nxc

/-- JS `\s` (restricted to the ASCII range actually produced by the engine). -/
def isSpaceJS (c : Char) : Bool :=
  c = ' ' || c = '\t' || c = '\n' || c = '\r' || c.toNat = 11 || c.toNat = 12

/-- JS `\w`: `[A-Za-z0-9_]`. -/
def isWordChar (c : Char) : Bool :=
  c.isAlpha || c.isDigit || c = '_'

/-- `[A-Za-z_]`: a legal identifier start. -/
def isIdentStart (c : Char) : Bool :=
  c.isAlpha || c = '_'

/-- JS `String.prototype.trim` (ASCII whitespace). -/
def trimL (l : List Char) : List Char :=
  ((l.dropWhile isSpaceJS).reverse.dropWhile isSpaceJS).reverse

/-- JS `String.prototype.split(/\r?\n/)` on a character list. -/
def splitLinesAux : List Char → List Char → List (List Char)
  | [], acc => [acc.reverse]
  | '\r' :: '\n' :: rest, acc => acc.reverse :: splitLinesAux rest []
  | '\n' :: rest, acc => acc.reverse :: splitLinesAux rest []
  | c :: rest, acc => splitLinesAux rest (c :: acc)

def splitLinesL (l : List Char) : List (List Char) :=
  splitLinesAux l []

/-- JS `String.prototype.indexOf` for a single character, as an index
(`-1` when absent). -/
def indexOfCharAux (c : Char) : List Char → Int → Int
  | [], _ => -1
  | d :: ds, i => if d = c then i else indexOfCharAux c ds (i + 1)

def indexOfChar (c : Char) (l : List Char) : Int :=
  indexOfCharAux c l 0

/-- JS `String.prototype.indexOf` for a substring (`-1` when absent). -/
def indexOfSubAux (pat : List Char) : List Char → Int → Int
  | [], i => if pat = [] then i else -1
  | d :: ds, i =>
    if pat.isPrefixOf (d :: ds) then i else indexOfSubAux pat ds (i + 1)

def indexOfSub (pat l : List Char) : Int :=
  indexOfSubAux pat l 0

/-- A diagnostic record (the fields the verified properties mention). -/
structure Diag where
  message : String
  line : Nat
  column : Int
deriving DecidableEq, Repr

/-! ## 1. The lexical scrubber: `removeCommentsAndStrings`

Direct embedding of `SimpleNXCParser.removeCommentsAndStrings`.  The JS
loop walks one character at a time with one character of lookahead
(`nextChar`); branches that also consume the lookahead (`//`, `/*`, the
`*/` close) advance the index twice, which here corresponds to the
two-character patterns.  The singleton pattern `[c]` is the `i =
length-1` iteration where `nextChar` is `undefined`, so none of the
two-character branches can fire and the recursive call is on `[]`
(inlined to the emitted characters). -/

structure ScrubState where
  inSingleLineComment : Bool
  inMultiLineComment : Bool
  inString : Bool
  inChar : Bool
  escaped : Bool
deriving DecidableEq, Repr

def scrub0 : ScrubState :=
  ⟨false, false, false, false, false⟩

/-- One iteration of the `removeCommentsAndStrings` loop body: given the
current character and the lookahead (`nextChar`, `none` at end of input),
return the characters appended to `result`, the updated state, and
whether the lookahead was also consumed (the JS `i++` branches). -/
def scrubStep (st : ScrubState) (c : Char) (nx : Option Char) :
    List Char × ScrubState × Bool :=
  if st.escaped then
    ((if !st.inSingleLineComment && !st.inMultiLineComment then [' '] else []),
      { st with escaped := false }, false)
  else if c = '\\' && (st.inString || st.inChar) then
    ((if !st.inSingleLineComment && !st.inMultiLineComment then [' '] else []),
      { st with escaped := true }, false)
  else if st.inSingleLineComment then
    if c = '\n' then ([c], { st with inSingleLineComment := false }, false)
    else ([' '], st, false)
  else if st.inMultiLineComment then
    if c = '*' && nx = some '/' then
      ([' ', ' '], { st with inMultiLineComment := false }, true)
    else
      ([if c = '\n' then c else ' '], st, false)
  else if st.inString then
    ([' '], if c = '"' then { st with inString := false } else st, false)
  else if st.inChar then
    ([' '], if c = '\'' then { st with inChar := false } else st, false)
  else if c = '/' && nx = some '/' then
    ([' ', ' '], { st with inSingleLineComment := true }, true)
  else if c = '/' && nx = some '*' then
    ([' ', ' '], { st with inMultiLineComment := true }, true)
  else if c = '"' then
    ([' '], { st with inString := true }, false)
  else if c = '\'' then
    ([' '], { st with inChar := true }, false)
  else
    ([c], st, false)

def scrubAux (st : ScrubState) : List Char → List Char
  | [] => []
  | [c] => (scrubStep st c none).1
  | c :: d :: rest =>
    match scrubStep st c (some d) with
    | (out, st', true) => out ++ scrubAux st' rest
    | (out, st', false) => out ++ scrubAux st' (d :: rest)

def scrubL (l : List Char) : List Char :=
  scrubAux scrub0 l

def removeCommentsAndStrings (s : String) : String :=
  String.mk (scrubL s.data)

/-- Reachable-state invariant of the scrubber: the `escaped` flag is only
ever set inside a string/char literal, and literal state never coexists
with comment state (comments are only entered from plain code). -/
def ScrubInv (st : ScrubState) : Prop :=
  (st.escaped = true → st.inString = true ∨ st.inChar = true) ∧
  ((st.inString = true ∨ st.inChar = true) →
    st.inSingleLineComment = false ∧ st.inMultiLineComment = false)

theorem scrubInv_scrub0 : ScrubInv scrub0 := by
  constructor <;> simp [scrub0]

theorem scrubStep_length (st : ScrubState) (c : Char) (nx : Option Char)
    (h : ScrubInv st) :
    (scrubStep st c nx).1.length = if (scrubStep st c nx).2.2 then 2 else 1 := by
  obtain ⟨slc, mlc, str, chr, esc⟩ := st
  obtain ⟨h1, h2⟩ := h
  simp only at h1 h2
  cases slc <;> cases mlc <;> cases str <;> cases chr <;> cases esc <;>
    simp_all [scrubStep] <;> split_ifs <;> simp_all

theorem scrubStep_inv (st : ScrubState) (c : Char) (nx : Option Char)
    (h : ScrubInv st) : ScrubInv (scrubStep st c nx).2.1 := by
  obtain ⟨slc, mlc, str, chr, esc⟩ := st
  obtain ⟨h1, h2⟩ := h
  simp only at h1 h2
  cases slc <;> cases mlc <;> cases str <;> cases chr <;> cases esc <;>
    simp_all [scrubStep, ScrubInv] <;> split_ifs <;> simp_all

/-- From any reachable state, the scrubber emits exactly one character per
consumed character (the JS `result` stays aligned with the input). -/
theorem scrubAux_length (st : ScrubState) (s : List Char) (h : ScrubInv st) :
    (scrubAux st s).length = s.length := by
  induction st, s using scrubAux.induct with
  | case1 st => simp [scrubAux]
  | case2 st c =>
    have hl := scrubStep_length st c none h
    have h2 : (scrubStep st c none).2.2 = false := by
      unfold scrubStep
      split_ifs <;> simp_all
    simp [scrubAux, hl, h2]
  | case3 st c d rest out st' hstep ih =>
    have hl := scrubStep_length st c (some d) h
    have hinv := scrubStep_inv st c (some d) h
    rw [hstep] at hl hinv
    simp only at hl hinv
    have hrec := ih hinv
    simp only [scrubAux, hstep]
    simp [List.length_append, hl, hrec]
    omega
  | case4 st c d rest out st' hstep ih =>
    have hl := scrubStep_length st c (some d) h
    have hinv := scrubStep_inv st c (some d) h
    rw [hstep] at hl hinv
    simp only at hl hinv
    have hrec := ih hinv
    simp only [scrubAux, hstep]
    simp [List.length_append, hl, hrec]
    omega

/-- The scrubber never invents a newline: each step emits at most the
newline it consumed. -/
theorem scrubStep_count_nl (st : ScrubState) (c : Char) (nx : Option Char) :
    (scrubStep st c nx).1.count '\n' ≤ if c = '\n' then 1 else 0 := by
  obtain ⟨slc, mlc, str, chr, esc⟩ := st
  cases slc <;> cases mlc <;> cases str <;> cases chr <;> cases esc <;>
    simp_all [scrubStep] <;> split_ifs <;> simp_all [List.count_cons]

theorem scrubAux_count_nl (st : ScrubState) (s : List Char) :
    (scrubAux st s).count '\n' ≤ s.count '\n' := by
  induction st, s using scrubAux.induct with
  | case1 st => simp [scrubAux]
  | case2 st c =>
    have h := scrubStep_count_nl st c none
    simp only [scrubAux]
    simp only [List.count_cons, List.count_nil]
    split_ifs at h <;> simp_all
  | case3 st c d rest out st' hstep ih =>
    have h := scrubStep_count_nl st c (some d)
    rw [hstep] at h
    simp only at h
    simp only [scrubAux, hstep, List.count_append, List.count_cons, List.count_nil]
    split_ifs at h <;> simp_all <;> omega
  | case4 st c d rest out st' hstep ih =>
    have h := scrubStep_count_nl st c (some d)
    rw [hstep] at h
    simp only at h
    simp only [scrubAux, hstep, List.count_append, List.count_cons, List.count_nil]
    simp only [List.count_cons] at ih
    split_ifs at h <;> simp_all <;> omega

/-- On already-plain characters the scrubber from the initial state is
the identity on the head: a space is copied unchanged. -/
theorem scrubStep_space (nx : Option Char) :
    scrubStep scrub0 ' ' nx = ([' '], scrub0, false) := by
  simp [scrubStep, scrub0]

theorem scrubStep_newline (nx : Option Char) :
    scrubStep scrub0 '\n' nx = (['\n'], scrub0, false) := by
  simp [scrubStep, scrub0]

/-- In the plain-code state, a character that is not a quote and does not
open a comment with the given lookahead is copied unchanged. -/
theorem scrubStep_scrub0_default (c : Char) (nx : Option Char)
    (h1 : c ≠ '"') (h2 : c ≠ '\'')
    (h3 : ¬(c = '/' ∧ nx = some '/')) (h4 : ¬(c = '/' ∧ nx = some '*')) :
    scrubStep scrub0 c nx = ([c], scrub0, false) := by
  simp only [scrubStep, scrub0]
  split_ifs <;> simp_all

/-- The first character emitted from the plain-code state is either a
blank or the consumed character itself. -/
theorem scrubStep_scrub0_head (c : Char) (nx : Option Char) :
    (scrubStep scrub0 c nx).1.head? = some ' ' ∨
      (scrubStep scrub0 c nx).1.head? = some c := by
  simp only [scrubStep, scrub0]
  split_ifs <;> simp_all

/-- Complete description of the characters one step can emit: blanks,
a preserved newline, or — only from the plain-code state — the consumed
character itself, in which case none of the region-opening conditions
held. -/
theorem scrubStep_out_cases (st : ScrubState) (c : Char) (nx : Option Char) :
    (scrubStep st c nx).1 = [' '] ∨ (scrubStep st c nx).1 = ['\n'] ∨
    (scrubStep st c nx).1 = [' ', ' '] ∨ (scrubStep st c nx).1 = [] ∨
    (scrubStep st c nx = ([c], st, false) ∧ st = scrub0 ∧ c ≠ '"' ∧ c ≠ '\'' ∧
      ¬(c = '/' ∧ nx = some '/') ∧ ¬(c = '/' ∧ nx = some '*')) := by
  obtain ⟨slc, mlc, str, chr, esc⟩ := st
  cases slc <;> cases mlc <;> cases str <;> cases chr <;> cases esc <;>
    simp_all [scrubStep, scrub0] <;> split_ifs <;> simp_all

/-- A head character that the plain-code state copies unchanged commutes
with the scrubber. -/
theorem scrubAux_cons_of_step (c : Char) (xs : List Char)
    (h : scrubStep scrub0 c xs.head? = ([c], scrub0, false)) :
    scrubAux scrub0 (c :: xs) = c :: scrubAux scrub0 xs := by
  cases xs with
  | nil => simp only [List.head?] at h; simp [scrubAux, h]
  | cons y ys => simp only [List.head?] at h; simp [scrubAux, h]

theorem scrubAux_scrub0_head (d : Char) (t : List Char) :
    (scrubAux scrub0 (d :: t)).head? = some ' ' ∨
      (scrubAux scrub0 (d :: t)).head? = some d := by
  cases t with
  | nil => simpa [scrubAux] using scrubStep_scrub0_head d none
  | cons y ys =>
    have hh := scrubStep_scrub0_head d (some y)
    have hl := scrubStep_length scrub0 d (some y) scrubInv_scrub0
    rcases hstep : scrubStep scrub0 d (some y) with ⟨out, st', two⟩
    rw [hstep] at hh hl
    simp only at hh hl
    simp only [scrubAux, hstep]
    cases two with
    | false =>
      simp only [if_neg Bool.false_ne_true] at hl
      obtain ⟨a, rfl⟩ := List.length_eq_one.mp hl
      simpa using hh
    | true =>
      simp only [if_pos rfl] at hl
      match out, hl with
      | [a, b], _ => simpa using hh

/-- Once the lookahead `i++` branch fires, the two consumed characters are
replaced by two blanks. -/
theorem scrubStep_two_emit (st : ScrubState) (c : Char) (nx : Option Char)
    (h : (scrubStep st c nx).2.2 = true) : (scrubStep st c nx).1 = [' ', ' '] := by
  obtain ⟨slc, mlc, str, chr, esc⟩ := st
  cases slc <;> cases mlc <;> cases str <;> cases chr <;> cases esc <;>
    simp_all [scrubStep] <;> split_ifs at h ⊢ <;> simp_all

/-- Scrubbed text is a fixed point of the scrubber. -/
theorem scrubAux_idem (st : ScrubState) (s : List Char) :
    scrubAux scrub0 (scrubAux st s) = scrubAux st s := by
  induction st, s using scrubAux.induct with
  | case1 st => simp [scrubAux]
  | case2 st c =>
    simp only [scrubAux]
    rcases scrubStep_out_cases st c none with h | h | h | h | ⟨heq, hst, h1, h2, _, _⟩
    · rw [h]; decide
    · rw [h]; decide
    · rw [h]; decide
    · rw [h]; decide
    · rw [heq]
      simp only
      show scrubAux scrub0 [c] = [c]
      simp [scrubAux, scrubStep_scrub0_default c none h1 h2 (by simp) (by simp)]
  | case3 st c d rest out st' hstep ih =>
    have htwo : out = [' ', ' '] := by
      have := scrubStep_two_emit st c (some d) (by rw [hstep])
      rwa [hstep] at this
    subst htwo
    have e : scrubAux st (c :: d :: rest) = ' ' :: ' ' :: scrubAux st' rest := by
      simp [scrubAux, hstep]
    rw [e, scrubAux_cons_of_step ' ' _ (scrubStep_space _),
        scrubAux_cons_of_step ' ' _ (scrubStep_space _), ih]
  | case4 st c d rest out st' hstep ih =>
    have e : scrubAux st (c :: d :: rest) = out ++ scrubAux st' (d :: rest) := by
      simp [scrubAux, hstep]
    rw [e]
    rcases scrubStep_out_cases st c (some d) with h | h | h | h | ⟨heq, hst, h1, h2, h3, h4⟩
    · rw [hstep] at h; simp only at h; subst h
      simp only [List.singleton_append]
      rw [scrubAux_cons_of_step ' ' _ (scrubStep_space _), ih]
    · rw [hstep] at h; simp only at h; subst h
      simp only [List.singleton_append]
      rw [scrubAux_cons_of_step '\n' _ (scrubStep_newline _), ih]
    · rw [hstep] at h; simp only at h; subst h
      simp only [List.cons_append, List.nil_append]
      rw [scrubAux_cons_of_step ' ' _ (scrubStep_space _),
          scrubAux_cons_of_step ' ' _ (scrubStep_space _), ih]
    · rw [hstep] at h; simp only at h; subst h
      simpa using ih
    · rw [hstep] at heq
      obtain ⟨hout, hst'⟩ : [c] = out ∧ st = st' := by
        simpa using heq.symm
      subst hout
      subst hst'
      subst hst
      simp only [List.singleton_append]
      have hhead := scrubAux_scrub0_head d rest
      have h3' : ¬(c = '/' ∧ (scrubAux scrub0 (d :: rest)).head? = some '/') := by
        rintro ⟨rfl, hq⟩
        rcases hhead with hh | hh <;> rw [hh] at hq <;> simp_all
      have h4' : ¬(c = '/' ∧ (scrubAux scrub0 (d :: rest)).head? = some '*') := by
        rintro ⟨rfl, hq⟩
        rcases hhead with hh | hh <;> rw [hh] at hq <;> simp_all
      rw [scrubAux_cons_of_step c _ (scrubStep_scrub0_default c _ h1 h2 h3' h4'), ih]

/-- `split(/\r?\n/)` produces one line per newline character plus one. -/
theorem splitLinesAux_length (l acc : List Char) :
    (splitLinesAux l acc).length = l.count '\n' + 1 := by
  induction l, acc using splitLinesAux.induct <;>
    simp_all [splitLinesAux, List.count_cons]

theorem splitLinesL_length (l : List Char) :
    (splitLinesL l).length = l.count '\n' + 1 :=
  splitLinesAux_length l []

/-- Number of lines of a string, as the engine computes it
(`split(/\r?\n/).length`). -/
def lineCountS (s : String) : Nat :=
  (splitLinesL s.data).length

/-- C6 (amended): for every input string, the scrubber output has exactly
the same character length as the input, and its line count never exceeds
the input's line count.  (Line-count equality, as originally claimed,
fails: a line break inside a string or char literal is blanked, see the
counterexample.) -/
theorem claim_C6_scrub_length_amended (s : String) :
    (removeCommentsAndStrings s).length = s.length ∧
    lineCountS (removeCommentsAndStrings s) ≤ lineCountS s := by
  constructor
  · show (scrubL s.data).length = s.data.length
    exact scrubAux_length scrub0 s.data scrubInv_scrub0
  · show (splitLinesL (scrubL s.data)).length ≤ (splitLinesL s.data).length
    rw [splitLinesL_length, splitLinesL_length]
    have h := scrubAux_count_nl scrub0 s.data
    simp only [scrubL]
    omega

/-- C6 (counterexample): the input consisting of a double quote followed
by a newline has two lines, but its scrubbed form is two blanks — one
line — because the newline sits inside the (unterminated) string literal
and is blanked.  This falsifies the claim that
`lineCount(scrub(s)) = lineCount(s)` for every `s`. -/
theorem claim_C6_counterexample :
    removeCommentsAndStrings "\"\n" = "  " ∧
    lineCountS "\"\n" = 2 ∧ lineCountS (removeCommentsAndStrings "\"\n") = 1 := by
  refine ⟨?_, ?_, ?_⟩ <;> decide

/-- C7: the scrubber is idempotent — applying `removeCommentsAndStrings`
to its own output leaves it unchanged, for every input string. -/
theorem claim_C7_scrub_idempotent (s : String) :
    removeCommentsAndStrings (removeCommentsAndStrings s) = removeCommentsAndStrings s :=
  congrArg String.mk (scrubAux_idem scrub0 s.data)

/-! ## 2. The bracket balance checker: `checkBalancing` / `analyzeBasicSyntax`

Embedding of `SimpleNXCParser.checkBalancing` and the end-of-input
unclosed-delimiter checks of `analyzeBasicSyntax`.  The three delimiter
kinds are tracked by three separate counters (`braceCount`, `parenCount`,
`bracketCount`); only braces additionally record positions on
`braceStack`. -/

/-- Error message constants of the balance checker (in the source these
are the string literals passed to `addError`). -/
def msgClosingBrace : String := "Closing brace without matching opening brace"

def msgClosingParen : String := "Closing parenthesis without matching opening parenthesis"

def msgClosingBracket : String := "Closing bracket without matching opening bracket"

def msgOpeningBrace : String := "Opening brace without matching closing brace"

def msgUnbalancedBraces : String := "Unbalanced braces - missing closing braces"

def msgUnbalancedParens : String := "Unbalanced parentheses - missing closing parentheses"

def msgUnbalancedBrackets : String := "Unbalanced brackets - missing closing brackets"

structure BalanceState where
  braceCount : Int
  parenCount : Int
  bracketCount : Int
  braceStack : List (Nat × Nat)
  errors : List Diag
deriving DecidableEq, Repr

def balance0 : BalanceState :=
  ⟨0, 0, 0, [], []⟩

/-- The `switch (char)` of `checkBalancing`: counter bookkeeping for one
non-string, non-comment character at line `li`, column `i`. -/
def balanceSwitch (st : BalanceState) (li i : Nat) (c : Char) : BalanceState :=
  if c = '{' then
    { st with braceCount := st.braceCount + 1, braceStack := st.braceStack ++ [(li, i)] }
  else if c = '}' then
    if st.braceCount - 1 < 0 then
      { st with braceCount := 0, errors := st.errors ++ [⟨msgClosingBrace, li, i⟩] }
    else
      { st with braceCount := st.braceCount - 1, braceStack := st.braceStack.dropLast }
  else if c = '(' then
    { st with parenCount := st.parenCount + 1 }
  else if c = ')' then
    if st.parenCount - 1 < 0 then
      { st with parenCount := 0, errors := st.errors ++ [⟨msgClosingParen, li, i⟩] }
    else
      { st with parenCount := st.parenCount - 1 }
  else if c = '[' then
    { st with bracketCount := st.bracketCount + 1 }
  else if c = ']' then
    if st.bracketCount - 1 < 0 then
      { st with bracketCount := 0, errors := st.errors ++ [⟨msgClosingBracket, li, i⟩] }
    else
      { st with bracketCount := st.bracketCount - 1 }
  else
    st

/-- The character loop of `checkBalancing` for one line, with the line's
local string/escape state (a `//` outside a string breaks out of the
loop, discarding the rest of the line). -/
def checkBalancingAux (li : Nat) : List Char → Nat → Bool → Bool → BalanceState → BalanceState
  | [], _, _, _, st => st
  | c :: cs, i, inString, escaped, st =>
    if escaped then
      checkBalancingAux li cs (i + 1) inString false st
    else if c = '\\' && inString then
      checkBalancingAux li cs (i + 1) inString true st
    else if !inString && c = '/' && cs.head? = some '/' then
      st
    else if c = '"' then
      checkBalancingAux li cs (i + 1) (!inString) escaped st
    else if inString then
      checkBalancingAux li cs (i + 1) inString escaped st
    else
      checkBalancingAux li cs (i + 1) inString escaped (balanceSwitch st li i c)

def checkBalancing (st : BalanceState) (li : Nat) (line : List Char) : BalanceState :=
  checkBalancingAux li line 0 false false st

/-- The per-line scan of `analyzeBasicSyntax`: fold `checkBalancing` over
all lines. -/
def scanBalance (lines : List (List Char)) : BalanceState :=
  lines.enum.foldl (fun st p => checkBalancing st p.1 p.2) balance0

/-- The balance phase of `analyzeBasicSyntax`: the per-character scan
followed by the three end-of-input unclosed-delimiter checks. -/
def balancePhase (lines : List (List Char)) : List Diag :=
  let st := scanBalance lines
  st.errors ++
    (if st.braceCount > 0 then
      match st.braceStack.getLast? with
      | some (l, c) => [⟨msgOpeningBrace, l, c⟩]
      | none => [⟨msgUnbalancedBraces, lines.length - 1, 0⟩]
    else []) ++
    (if st.parenCount > 0 then [⟨msgUnbalancedParens, lines.length - 1, 0⟩] else []) ++
    (if st.bracketCount > 0 then [⟨msgUnbalancedBrackets, lines.length - 1, 0⟩] else [])

/-- Balance diagnostics of a whole source string. -/
def balanceErrors (s : String) : List Diag :=
  balancePhase (splitLinesL s.data)

/-- C1 (counterexample): on the input `"([)]"` the balance check emits no
diagnostic at all — it does not flag the interleaving as a mismatch,
contrary to the claim. -/
theorem claim_C1_counterexample : balanceErrors "([)]" = [] := by decide

/-- C1 (amended): on `"([)]"` the balance check finishes in the initial
state — every per-kind counter returns to zero and no error is recorded —
so the interleaved input is silently accepted: the three bracket kinds
are tracked by independent counters (`parenCount`, `bracketCount`,
`braceCount`), not by one shared stack. -/
theorem claim_C1_independent_counters :
    scanBalance (splitLinesL "([)]".data) = balance0 ∧ balanceErrors "([)]" = [] := by
  constructor <;> decide

/-- C2 (counterexample): for `"func(a, b"` the balance phase emits its
single error at line 0, column 0 (the generic `Unbalanced parentheses`
message, positioned at the last line, column 0), not at the `(`
character, which sits at column 4. -/
theorem claim_C2_counterexample :
    balanceErrors "func(a, b" = [⟨msgUnbalancedParens, 0, 0⟩] ∧
    indexOfChar '(' "func(a, b".data = 4 := by
  constructor <;> decide

/-- C2 (amended): whenever the scan ends with no scan errors, no open
braces or brackets, and a positive `parenCount`, the balance phase emits
exactly one unclosed-delimiter error — but it is the generic
`Unbalanced parentheses` diagnostic positioned at the last line, column
0, not at the unmatched `(` character (only unclosed braces are reported
at the innermost unmatched opener, via `braceStack`). -/
theorem claim_C2_unclosed_paren_amended (lines : List (List Char))
    (he : (scanBalance lines).errors = [])
    (hb : (scanBalance lines).braceCount = 0)
    (hk : (scanBalance lines).bracketCount = 0)
    (hp : 0 < (scanBalance lines).parenCount) :
    balancePhase lines = [⟨msgUnbalancedParens, lines.length - 1, 0⟩] := by
  simp [balancePhase, he, hb, hk, hp]

theorem claim_C2_witness :
    balancePhase (splitLinesL "func(a, b".data) =
      [⟨msgUnbalancedParens, (splitLinesL "func(a, b".data).length - 1, 0⟩] :=
  claim_C2_unclosed_paren_amended (splitLinesL "func(a, b".data)
    (by decide) (by decide) (by decide) (by decide)

/-- C3 (counterexample): on `"))"` the balance check emits two
diagnostics, one per underflowing closer — it does not stop scanning
after the first mismatch. -/
theorem claim_C3_counterexample : 1 < (balanceErrors "))").length := by decide

/-- C3 (amended): a closer whose own counter is at (or below) zero
produces exactly one error at that closer's position, resets that
counter to zero, and the scan continues — it is not aborted, so later
closers can produce further diagnostics (`"))"` yields two); closers are
matched per kind only, so an interleaving mismatch with non-negative
counters produces no error at all. -/
theorem claim_C3_mismatch_policy_amended :
    (∀ (st : BalanceState) (li i : Nat), st.parenCount ≤ 0 →
      balanceSwitch st li i ')' =
        { st with parenCount := 0, errors := st.errors ++ [⟨msgClosingParen, li, i⟩] }) ∧
    (∀ (st : BalanceState) (li i : Nat), st.bracketCount ≤ 0 →
      balanceSwitch st li i ']' =
        { st with bracketCount := 0, errors := st.errors ++ [⟨msgClosingBracket, li, i⟩] }) ∧
    (∀ (st : BalanceState) (li i : Nat), st.braceCount ≤ 0 →
      balanceSwitch st li i '}' =
        { st with braceCount := 0, errors := st.errors ++ [⟨msgClosingBrace, li, i⟩] }) ∧
    balanceErrors "))" = [⟨msgClosingParen, 0, 0⟩, ⟨msgClosingParen, 0, 1⟩] := by
  refine ⟨?_, ?_, ?_, by decide⟩ <;>
    · intro st li i h
      simp only [balanceSwitch]
      split_ifs <;> simp_all <;> omega

theorem claim_C3_witness :
    balanceSwitch balance0 0 0 ')' =
      { balance0 with parenCount := 0, errors := balance0.errors ++ [⟨msgClosingParen, 0, 0⟩] } :=
  claim_C3_mismatch_policy_amended.1 balance0 0 0 (by decide)

/-! ## 3. Semantic analysis: `performSemanticAnalysis`

Embedding of the two-pass declaration/scope tracker.  The line-level
regular expressions of the source are implemented as explicit scanners;
where a regex scans for repeated matches, the scanner carries a fuel
argument bounded by the line length so that all definitions stay
structurally recursive (and hence computable by the kernel). -/

/-- A single quote character, used to build the diagnostic messages. -/
def sq : String := "\x27"

def dropWs (l : List Char) : List Char := l.dropWhile isSpaceJS

def hasWsPrefix : List Char → Bool
  | c :: _ => isSpaceJS c
  | [] => false

def takeWord (l : List Char) : List Char := l.takeWhile isWordChar

def dropWord (l : List Char) : List Char := l.dropWhile isWordChar

/-- Type keywords accepted by the function/task declaration regex. -/
def funcTypeKws : List String :=
  ["task", "sub", "void", "int", "float", "byte", "char", "string", "bool",
   "long", "short", "unsigned"]

/-- Type keywords accepted by the variable declaration regexes. -/
def varTypeKws : List String :=
  ["int", "float", "byte", "char", "string", "bool", "mutex", "long", "short",
   "unsigned"]

def specifierKws : List String := ["inline", "safecall", "static"]

def ppDirectives : List String := ["if", "ifdef", "ifndef", "else", "endif"]

/-- `isKeyword` of the source. -/
def isKeyword (w : String) : Bool :=
  ["if", "else", "while", "for", "do", "switch", "case", "default",
   "break", "continue", "return", "goto", "repeat", "until",
   "task", "sub", "void", "inline", "safecall",
   "int", "float", "byte", "char", "string", "bool", "mutex", "long", "short",
   "unsigned", "signed", "const",
   "struct", "enum", "typedef", "variant",
   "true", "false", "TRUE", "FALSE", "NULL",
   "start", "stop", "priority", "asm"].contains w

/-- `isBuiltInConstant` of the source. -/
def isBuiltInConstant (w : String) : Bool :=
  ["TRUE", "FALSE", "NULL", "true", "false",
   "OUT_A", "OUT_B", "OUT_C", "OUT_AB", "OUT_AC", "OUT_BC", "OUT_ABC",
   "IN_1", "IN_2", "IN_3", "IN_4",
   "SENSOR_1", "SENSOR_2", "SENSOR_3", "SENSOR_4",
   "LCD_LINE1", "LCD_LINE2", "LCD_LINE3", "LCD_LINE4", "LCD_LINE5",
   "LCD_LINE6", "LCD_LINE7", "LCD_LINE8",
   "NO_ERR", "ERR_ARG", "ERR_INVAL", "ERR_FILE", "ERR_COMM",
   "COL_BLACK", "COL_BLUE", "COL_GREEN", "COL_YELLOW", "COL_RED", "COL_WHITE",
   "COL_BROWN",
   "OUT_MODE_MOTORON", "OUT_MODE_BRAKE", "OUT_MODE_REGULATED", "OUT_MODE_COAST",
   "OUT_REGMODE_IDLE", "OUT_REGMODE_SPEED", "OUT_REGMODE_SYNC",
   "OUT_RUNSTATE_IDLE", "OUT_RUNSTATE_RAMPUP", "OUT_RUNSTATE_RUNNING",
   "OUT_RUNSTATE_RAMPDOWN"].contains w

/-- The essential built-in catalog of `loadBuiltInFunctions` (the
fallback set; the external `nxc_api.txt` data file is not part of the
code under analysis, so an absent file leaves exactly this set). -/
def essentialFunctions : List String :=
  ["OnFwd", "OnRev", "Off", "Wait", "CurrentTick", "Sensor", "ColorSensor",
   "SensorUS",
   "SetSensorColorFull", "SetSensorUltrasonic", "ResetRotationCount",
   "MotorRotationCount",
   "SetSensorType", "SetSensorMode", "ClearSensor", "ResetSensor", "SetSensor",
   "SetSensorTouch", "SetSensorLight", "SetSensorSound", "SetSensorLowspeed",
   "SetSensorEMeter", "SetSensorTemperature", "SetSensorColorRed",
   "SetSensorColorGreen",
   "SetSensorColorBlue", "SetSensorColorNone", "ClearScreen", "ClearLine",
   "PlaySound", "PlayTones", "TextOut", "NumOut", "PointOut", "LineOut",
   "CircleOut",
   "RectOut", "PolyOut", "EllipseOut", "FontTextOut", "FontNumOut",
   "Sin", "Cos", "Tan", "ASin", "ACos", "ATan", "ATan2", "Sinh", "Cosh", "Tanh",
   "Exp", "Log", "Log10", "Sqrt", "Pow", "Ceil", "Floor", "Trunc", "Frac",
   "Sign",
   "Abs", "Max", "Min", "Constrain", "Map", "Random", "SRandom"]

/-- `^#\s*(if|ifdef|ifndef|else|endif)\b` on a trimmed line: the word
after `#` (and optional whitespace) must be exactly one of the
directives (the trailing `\b` forces the full word). -/
def matchPP : List Char → Option String
  | '#' :: rest =>
    let r := dropWs rest
    let w := String.mk (takeWord r)
    if ppDirectives.contains w then some w else none
  | _ => none

/-- `^\s*#\s*define\s+([a-zA-Z_][a-zA-Z0-9_]*)`. -/
def matchMacroDef (l : List Char) : Option String :=
  match dropWs l with
  | '#' :: rest =>
    let r := dropWs rest
    if "define".data.isPrefixOf r then
      let r2 := r.drop 6
      if hasWsPrefix r2 then
        match dropWs r2 with
        | c :: cs => if isIdentStart c then some (String.mk (c :: takeWord cs)) else none
        | [] => none
      else none
    else none
  | _ => none

/-- `^\s*(?:(?:inline|safecall|static)\s+)*?(?:task|sub|void|…)\s+(\w+)\s*\(`:
skip leading specifiers (each followed by whitespace), then require a
type keyword as a full word followed by whitespace, a `\w+` name, and an
opening parenthesis.  Returns the captured name and the suffix after the
`(`. -/
def matchFuncDeclAux : Nat → List Char → Option (String × List Char)
  | 0, _ => none
  | fuel + 1, l =>
    let run := takeWord l
    let rest := dropWord l
    if run ≠ [] && funcTypeKws.contains (String.mk run) && hasWsPrefix rest then
      let r1 := dropWs rest
      let nm := takeWord r1
      let r2 := dropWord r1
      match nm, dropWs r2 with
      | _ :: _, '(' :: r3 => some (String.mk nm, r3)
      | _, _ => none
    else if run ≠ [] && specifierKws.contains (String.mk run) && hasWsPrefix rest then
      matchFuncDeclAux fuel (dropWs rest)
    else none

def matchFuncDecl (l : List Char) : Option (String × List Char) :=
  matchFuncDeclAux (l.length + 1) (dropWs l)

/-- The parameter-list part of the declaration-header regex
`…\s*\(([^)]*)\)`: the text between the `(` and the next `)`, if a `)`
exists. -/
def matchFuncParams (l : List Char) : Option (List Char) :=
  match matchFuncDecl l with
  | some (_, afterParen) =>
    let content := afterParen.takeWhile (fun c => c ≠ ')')
    match afterParen.dropWhile (fun c => c ≠ ')') with
    | ')' :: _ => some content
    | _ => none
  | none => none

/-- `param.trim().match(/^\s*(int|float|…|unsigned)\s+(\w+)/)`. -/
def matchParamDecl (l : List Char) : Option String :=
  let r := dropWs l
  let run := takeWord r
  let rest := dropWord r
  if run ≠ [] && varTypeKws.contains (String.mk run) && hasWsPrefix rest then
    let nm := takeWord (dropWs rest)
    if nm ≠ [] then some (String.mk nm) else none
  else none

/-- Split a parameter list on commas (JS `String.prototype.split(',')`). -/
def splitOnCommaAux : List Char → List Char → List (List Char)
  | [], acc => [acc.reverse]
  | ',' :: rest, acc => acc.reverse :: splitOnCommaAux rest []
  | c :: rest, acc => splitOnCommaAux rest (c :: acc)

def splitOnComma (l : List Char) : List (List Char) :=
  splitOnCommaAux l []

/-- The `(?:\s*,\s*[a-zA-Z_][a-zA-Z0-9_]*)*` tail of the multi-declarator
regex: greedily consume further comma-separated names; on failure the
remainder starts before the unconsumed `,`. -/
def parseNameListAux : Nat → List Char → List String → List String × List Char
  | 0, l, acc => (acc.reverse, l)
  | fuel + 1, l, acc =>
    match dropWs l with
    | ',' :: r2 =>
      match dropWs r2 with
      | c :: cs =>
        if isIdentStart c then
          parseNameListAux fuel (dropWord cs) (String.mk (c :: takeWord cs) :: acc)
        else (acc.reverse, l)
      | [] => (acc.reverse, l)
    | _ => (acc.reverse, l)

/-- All matches of
`\b(int|float|byte|char|string|bool|mutex|long|short|unsigned)\s+([a-zA-Z_][a-zA-Z0-9_]*(?:\s*,\s*[a-zA-Z_][a-zA-Z0-9_]*)*)`:
a match can only start at the start of a maximal word run (the leading
`\b` plus the required `\s+` after the keyword force the run to be
exactly a type keyword), and scanning resumes after the last declarator
name.  Returns the `(type, names)` pairs in order. -/
def varDeclScanAux : Nat → List Char → Bool → List (String × List String)
  | 0, _, _ => []
  | _ + 1, [], _ => []
  | fuel + 1, c :: cs, prevWord =>
    if isWordChar c && !prevWord then
      let run := c :: takeWord cs
      let rest := dropWord cs
      if varTypeKws.contains (String.mk run) && hasWsPrefix rest then
        match dropWs rest with
        | d :: ds =>
          if isIdentStart d then
            let nm := String.mk (d :: takeWord ds)
            let afterName := dropWord ds
            let (names, r2) := parseNameListAux (afterName.length + 1) afterName []
            (String.mk run, nm :: names) :: varDeclScanAux fuel r2 true
          else varDeclScanAux fuel rest true
        | [] => varDeclScanAux fuel rest true
      else varDeclScanAux fuel rest true
    else varDeclScanAux fuel cs (isWordChar c)

def matchAllVarDecls (l : List Char) : List (String × List String) :=
  varDeclScanAux (l.length + 1) l false

/-- `for\s*\(\s*(int|float|…|unsigned)\s+` at one position; returns the
suffix after the type keyword's trailing whitespace. -/
def tryForType (l : List Char) : Option (List Char) :=
  if "for".data.isPrefixOf l then
    match dropWs (l.drop 3) with
    | '(' :: r2 =>
      let r3 := dropWs r2
      let run := takeWord r3
      let rest := dropWord r3
      if run ≠ [] && varTypeKws.contains (String.mk run) && hasWsPrefix rest then
        some (dropWs rest)
      else none
    | _ => none
  else none

/-- `trimmed.match(/for\s*\(\s*(type)\s+/)` used as a guard. -/
def forGuardSearch : List Char → Bool
  | [] => false
  | l@(_ :: cs) => (tryForType l).isSome || forGuardSearch cs

/-- `for\s*\(\s*(type)\s+(\w+)` at one position: also capture the loop
variable name. -/
def tryForVar (l : List Char) : Option String :=
  match tryForType l with
  | some r4 =>
    let nm := takeWord r4
    if nm ≠ [] then some (String.mk nm) else none
  | none => none

/-- First match of `for\s*\(\s*(type)\s+(\w+)` anywhere in the line. -/
def forLoopSearch : List Char → Option String
  | [] => none
  | l@(_ :: cs) =>
    match tryForVar l with
    | some nm => some nm
    | none => forLoopSearch cs

/-- All matches of `(\w+)\s*\(`: maximal word runs followed by optional
whitespace and `(`; scanning resumes after the `(`. -/
def funcCallScanAux : Nat → List Char → Bool → List String
  | 0, _, _ => []
  | _ + 1, [], _ => []
  | fuel + 1, c :: cs, prevWord =>
    if isWordChar c && !prevWord then
      let run := c :: takeWord cs
      let rest := dropWord cs
      match dropWs rest with
      | '(' :: r2 => String.mk run :: funcCallScanAux fuel r2 false
      | _ => funcCallScanAux fuel rest true
    else funcCallScanAux fuel cs (isWordChar c)

def funcCallScan (l : List Char) : List String :=
  funcCallScanAux (l.length + 1) l false

/-- All matches of `\b([a-zA-Z_][a-zA-Z0-9_]*)\b`: maximal word runs that
start with a letter or underscore (runs starting with a digit are not
identifiers and produce no match). -/
def identClose (acc : List Char) : List String :=
  match acc with
  | a :: _ => if isIdentStart a then [String.mk acc] else []
  | [] => []

def identScanAux : List Char → List Char → List String
  | [], acc => identClose acc
  | c :: cs, acc =>
    if isWordChar c then identScanAux cs (acc ++ [c])
    else identClose acc ++ identScanAux cs []

def identScan (l : List Char) : List String :=
  identScanAux l []

/-- `trimmed.match(new RegExp("\\b" + name + "\\s*\\("))`: the name at a
word boundary, followed by optional whitespace and `(`, anywhere in the
line. -/
def containsCallAt (name l : List Char) : Bool :=
  name.isPrefixOf l &&
    (match dropWs (l.drop name.length) with
     | '(' :: _ => true
     | _ => false)

def containsCallScan (name : List Char) : List Char → Bool → Bool
  | [], _ => false
  | l@(c :: cs), prevWord =>
    (!prevWord && containsCallAt name l) || containsCallScan name cs (isWordChar c)

def containsCallPattern (name l : List Char) : Bool :=
  containsCallScan name l false

/-- `trimmed.match(new RegExp("^\\s*(int|float|…|unsigned)\\s+" + name + "\\b"))`. -/
def matchesDeclOfName (l name : List Char) : Bool :=
  let r := dropWs l
  let run := takeWord r
  let rest := dropWord r
  run ≠ [] && varTypeKws.contains (String.mk run) && hasWsPrefix rest &&
    (let r2 := dropWs rest
     name.isPrefixOf r2 &&
       (match r2.drop name.length with
        | c :: _ => !isWordChar c
        | [] => true))

/-- The lazy part of `=\s*\{[\s\S]*?\}\s*\[`: the first `}` that is
followed by optional whitespace and `[`; returns the suffix after the
`[`. -/
def findCloseThenBracket : Nat → List Char → Option (List Char)
  | 0, _ => none
  | _ + 1, [] => none
  | fuel + 1, c :: cs =>
    if c = '}' then
      match dropWs cs with
      | '[' :: r => some r
      | _ => findCloseThenBracket fuel cs
    else findCloseThenBracket fuel cs

/-- All match start indexes of `=\s*\{[\s\S]*?\}\s*\[` (the
braced-initializer-subscript check). -/
def badInitScanAux : Nat → List Char → Nat → List Nat
  | 0, _, _ => []
  | _ + 1, [], _ => []
  | fuel + 1, c :: cs, pos =>
    if c = '=' then
      match dropWs cs with
      | '{' :: r2 =>
        match findCloseThenBracket (r2.length + 1) r2 with
        | some r3 => pos :: badInitScanAux fuel r3 (pos + ((c :: cs).length - r3.length))
        | none => badInitScanAux fuel cs (pos + 1)
      | _ => badInitScanAux fuel cs (pos + 1)
    else badInitScanAux fuel cs (pos + 1)

def badInitPositions (l : List Char) : List Nat :=
  badInitScanAux (l.length + 1) l 0

/-! Association-list models of JS `Map` and `Set` (insertion order
preserved; `set`/`add` update in place or append). -/

def assocHas {α : Type} (m : List (String × α)) (k : String) : Bool :=
  m.any (fun p => p.1 = k)

def assocGet {α : Type} (m : List (String × α)) (k : String) : Option α :=
  (m.find? (fun p => p.1 = k)).map (fun p => p.2)

def assocSet {α : Type} (m : List (String × α)) (k : String) (v : α) :
    List (String × α) :=
  if m.any (fun p => p.1 = k) then
    m.map (fun p => if p.1 = k then (k, v) else p)
  else m ++ [(k, v)]

def setAdd (s : List String) (k : String) : List String :=
  if s.contains k then s else s ++ [k]

/-! The `levenshtein` helper (dynamic programming over two rows, exactly
the classic table the source builds row by row). -/

/-- Build `dp[i]` from `dp[i-1]` (`prev`), left-to-right;
`left = dp[i][j-1]` starts at `dp[i][0] = i`. -/
def levRowAux (ca : Char) : List Char → List Nat → Nat → List Nat
  | cb :: bs, pPrev :: pRest, left =>
    let pCur := pRest.headD 0
    let cost := if ca = cb then 0 else 1
    let v := min (pCur + 1) (min (left + 1) (pPrev + cost))
    left :: levRowAux ca bs pRest v
  | _, _, left => [left]

def levLoop (b : List Char) : List Char → List Nat → Nat → List Nat
  | [], prev, _ => prev
  | ca :: as', prev, i => levLoop b as' (levRowAux ca b prev i) (i + 1)

/-- `levenshtein(a, b)` of the source (with its `a === b` early return). -/
def levenshtein (a b : List Char) : Nat :=
  if a = b then 0
  else (levLoop b a (List.range (b.length + 1)) 1).getLastD 0

def lowerS (s : String) : String :=
  String.mk (s.data.map Char.toLower)

/-- `threshold = funcName.length <= 4 ? 1 : 2`. -/
def threshold (name : String) : Nat :=
  if name.length ≤ 4 then 1 else 2

/-- The best-match loop: first strict minimizer of the case-insensitive
edit distance over the catalog. -/
def bestMatchAux (nm : String) : List String → Option (String × Nat) → Option (String × Nat)
  | [], acc => acc
  | c :: cs, acc =>
    let d := levenshtein (lowerS nm).data (lowerS c).data
    let acc' :=
      match acc with
      | none => some (c, d)
      | some (b, bd) => if d < bd then some (c, d) else some (b, bd)
    bestMatchAux nm cs acc'

/-! Diagnostic messages of the semantic passes (apostrophes written via
`sq` to keep the file ASCII-clean). -/

def msgFuncAlready (f : String) (line1 : Int) : String :=
  "Function/task " ++ sq ++ f ++ sq ++ " already declared at line " ++ toString line1

def msgFuncConflict (f : String) (line1 : Int) : String :=
  "Function/task " ++ sq ++ f ++ sq ++ " conflicts with declaration at line " ++
    toString line1

def msgVarAlready (v : String) (line1 : Nat) : String :=
  "Variable " ++ sq ++ v ++ sq ++ " already declared at line " ++ toString line1

def msgVarUndef (v : String) : String :=
  "Variable " ++ sq ++ v ++ sq ++ " is not defined"

def msgDidYouMean (f b : String) : String :=
  "Function " ++ sq ++ f ++ sq ++ " is not defined. Did you mean " ++ sq ++ b ++
    sq ++ "?"

def msgBadInit : String := "Array access on braced initializer is not allowed"

/-! ### Pass 1: collect macros and function/task declarations -/

/-- An entry of the `declaredFunctions` map: declaration line (`-1` for
built-ins) and whether it occurred at preprocessor conditional depth
`> 0`. -/
structure FuncEntry where
  line : Int
  conditional : Bool
deriving DecidableEq, Repr

structure Pass1State where
  declaredFunctions : List (String × FuncEntry)
  declaredMacros : List String
  conditionalDepth : Nat
  errors : List Diag
deriving DecidableEq, Repr

/-- The conflict policy for a function/task declaration of `f` at line
`li`, column `col`: two conditional declarations coexist silently; a
non-conditional pair, or a mixed pair, is an error at the second
occurrence; a later non-conditional declaration replaces a conditional
entry. -/
def registerFuncDecl (st : Pass1State) (f : String) (li : Nat) (col : Int) :
    Pass1State :=
  let isCond : Bool := decide (0 < st.conditionalDepth)
  match assocGet st.declaredFunctions f with
  | none =>
    { st with declaredFunctions := assocSet st.declaredFunctions f ⟨(li : Int), isCond⟩ }
  | some e =>
    let st1 :=
      if !e.conditional && !isCond then
        { st with errors := st.errors ++ [⟨msgFuncAlready f (e.line + 1), li, col⟩] }
      else if !e.conditional || !isCond then
        { st with errors := st.errors ++ [⟨msgFuncConflict f (e.line + 1), li, col⟩] }
      else st
    if e.conditional && !isCond then
      { st1 with declaredFunctions := assocSet st1.declaredFunctions f ⟨(li : Int), false⟩ }
    else st1

/-- Preprocessor-directive tracking shared by both passes:
`#if`/`#ifdef`/`#ifndef` increment the depth, `#endif` decrements it
(floored at 0), `#else` leaves it unchanged. -/
def ppDepthUpdate (depth : Nat) (d : String) : Nat :=
  if d = "if" || d = "ifdef" || d = "ifndef" then depth + 1
  else if d = "endif" then depth - 1
  else depth

def pass1Line (lines : List (List Char)) (st : Pass1State) (p : Nat × List Char) :
    Pass1State :=
  let li := p.1
  let originalLine := lines.getD li []
  let trimmed := trimL p.2
  if trimmed = [] then st
  else
    let st :=
      match matchMacroDef trimmed with
      | some m => { st with declaredMacros := setAdd st.declaredMacros m }
      | none => st
    let st :=
      match matchPP trimmed with
      | some d => { st with conditionalDepth := ppDepthUpdate st.conditionalDepth d }
      | none => st
    match matchFuncDecl trimmed with
    | some (f, _) => registerFuncDecl st f li (indexOfSub f.data originalLine)
    | none => st

def pass1Init (builtIns : List String) : Pass1State :=
  ⟨builtIns.map (fun fn => (fn, ⟨-1, false⟩)), [], 0, []⟩

def pass1 (builtIns : List String) (lines cleanedLines : List (List Char)) :
    Pass1State :=
  cleanedLines.enum.foldl (pass1Line lines) (pass1Init builtIns)

/-! ### Pass 2: scopes, variable declarations and usage -/

structure VarInfo where
  line : Nat
  column : Int
  used : Bool
deriving DecidableEq, Repr

/-- The scope stack: index 0 is the global scope, the last entry is the
current (innermost) scope, as in the JS array. -/
abbrev Scopes := List (List (String × VarInfo))

def currentScope (scopes : Scopes) : List (String × VarInfo) :=
  (scopes.getLast?).getD []

def modifyCurrent (scopes : Scopes)
    (f : List (String × VarInfo) → List (String × VarInfo)) : Scopes :=
  scopes.dropLast ++ [f (currentScope scopes)]

/-- Mark a name used in the innermost scope that declares it (scanning
`scopes` from the top of the stack down); also report whether it was
found. -/
def markUsedRev (v : String) : Scopes → Option Scopes
  | [] => none
  | sc :: rest =>
    match assocGet sc v with
    | some info => some (assocSet sc v { info with used := true } :: rest)
    | none => (markUsedRev v rest).map (fun r => sc :: r)

def markUsed (scopes : Scopes) (v : String) : Scopes × Bool :=
  match markUsedRev v scopes.reverse with
  | some r => (r.reverse, true)
  | none => (scopes, false)

structure Pass2State where
  scopes : Scopes
  conditionalDepth : Nat
  inMultilineMacro : Bool
  calledFunctions : List (String × Nat × Int)
  errors : List Diag
deriving DecidableEq, Repr

/-- Register one declarator name: duplicate only if the CURRENT
(innermost) scope already has it; the error is positioned at the new
occurrence and names the original declaration's (1-based) line. -/
def declareVarName (st : Pass2State) (v : String) (li : Nat)
    (originalLine : List Char) : Pass2State :=
  let col := indexOfSub v.data originalLine
  if 0 ≤ col then
    match assocGet (currentScope st.scopes) v with
    | some existing =>
      { st with errors := st.errors ++ [⟨msgVarAlready v (existing.line + 1), li, col⟩] }
    | none =>
      { st with scopes := modifyCurrent st.scopes (fun sc => assocSet sc v ⟨li, col, false⟩) }
  else st

def pass2Line (builtIns macros : List String) (lines : List (List Char))
    (st : Pass2State) (p : Nat × List Char) : Pass2State :=
  let li := p.1
  let cleanedLine := p.2
  let originalLine := lines.getD li []
  let trimmed := trimL cleanedLine
  if trimmed = [] then st
  else
    -- multiline-macro continuation tracking
    let st :=
      if 0 < li then
        { st with inMultilineMacro := (trimL (lines.getD (li - 1) [])).getLast? = some '\\' }
      else st
    let st :=
      if "#define".data.isPrefixOf trimmed && (trimL originalLine).getLast? = some '\\' then
        { st with inMultilineMacro := true }
      else st
    if st.inMultilineMacro && !("#".data.isPrefixOf trimmed) then st
    else
      let st :=
        match matchPP trimmed with
        | some d => { st with conditionalDepth := ppDepthUpdate st.conditionalDepth d }
        | none => st
      -- multi-declarator variable declarations (skipped on for-loop lines)
      let hasForDecl := forGuardSearch trimmed
      let st :=
        (matchAllVarDecls trimmed).foldl
          (fun st m =>
            if hasForDecl then st
            else m.2.foldl (fun st nm => declareVarName st nm li originalLine) st)
          st
      -- for-loop variable: a fresh scope holding just the loop variable
      let forVar := forLoopSearch trimmed
      let st :=
        match forVar with
        | some nm =>
          let col := indexOfSub nm.data originalLine
          if 0 ≤ col then
            { st with scopes := st.scopes ++ [[(nm, ⟨li, col, false⟩)]] }
          else st
        | none => st
      -- opening braces push scopes, unless a for-loop scope was created
      let st :=
        if forVar.isSome then st
        else { st with scopes := st.scopes ++ List.replicate (cleanedLine.count '{') [] }
      -- record function calls
      let st :=
        (funcCallScan trimmed).foldl
          (fun st f =>
            if !isKeyword f then
              let col := indexOfSub f.data originalLine
              if 0 ≤ col then
                { st with calledFunctions := assocSet st.calledFunctions f (li, col) }
              else st
            else st)
          st
      -- function parameters enter the current scope
      let st :=
        if (matchFuncDecl trimmed).isSome then
          match matchFuncParams trimmed with
          | some content =>
            if trimL content ≠ [] then
              (splitOnComma content).foldl
                (fun st param =>
                  match matchParamDecl (trimL param) with
                  | some pn =>
                    if !assocHas (currentScope st.scopes) pn then
                      let col := indexOfSub pn.data originalLine
                      { st with scopes := (modifyCurrent st.scopes
                          (fun sc => assocSet sc pn ⟨li, if 0 ≤ col then col else 0, false⟩)) }
                    else st
                  | none => st)
                st
            else st
          | none => st
        else st
      -- identifier usage and undefined-variable errors
      let st :=
        if !("#".data.isPrefixOf trimmed) && !st.inMultilineMacro then
          (identScan trimmed).foldl
            (fun st v =>
              if !isKeyword v && !macros.contains v && !builtIns.contains v &&
                  !isBuiltInConstant v then
                let fs := markUsed st.scopes v
                let st := { st with scopes := fs.1 }
                if !fs.2 && !containsCallPattern v.data trimmed &&
                    !matchesDeclOfName trimmed v.data then
                  let col := indexOfSub v.data originalLine
                  if 0 ≤ col then
                    { st with errors := st.errors ++ [⟨msgVarUndef v, li, col⟩] }
                  else st
                else st
              else st)
            st
        else st
      -- closing braces pop scopes (never below the global one)
      (List.range (cleanedLine.count '}')).foldl
        (fun st _ =>
          if 1 < st.scopes.length then { st with scopes := st.scopes.dropLast } else st)
        st

def pass2Init : Pass2State :=
  ⟨[[]], 0, false, [], []⟩

def pass2 (builtIns macros : List String) (lines cleanedLines : List (List Char)) :
    Pass2State :=
  cleanedLines.enum.foldl (pass2Line builtIns macros lines) pass2Init

/-! ### Braced-initializer check, suggestions, and the whole pass -/

def badInitErrors (source cleaned : List Char) : List Diag :=
  (badInitPositions cleaned).map fun idx =>
    let pre := source.take idx
    ⟨msgBadInit, (splitLinesL pre).length - 1, (((splitLinesL pre).getLastD []).length : Int)⟩

/-- The `if (best && bestDist <= threshold)` tail of the loop: the first
minimum-distance catalog entry, if its distance is within the
length-scaled threshold, else nothing. -/
def suggestFor (catalog : List String) (nm : String) : Option String :=
  match bestMatchAux nm catalog none with
  | some (b, d) => if d ≤ threshold nm then some b else none
  | none => none

/-- The did-you-mean loop over recorded calls: for every called name not
among declared functions/macros, warn iff the best case-insensitive
edit-distance match over the catalog is within the length-scaled
threshold. -/
def suggestWarnings (builtIns : List String)
    (declaredFunctions : List (String × FuncEntry)) (macros : List String)
    (called : List (String × Nat × Int)) : List Diag :=
  called.foldl
    (fun ws p =>
      if assocHas declaredFunctions p.1 || macros.contains p.1 then ws
      else
        match suggestFor builtIns p.1 with
        | some b => ws ++ [⟨msgDidYouMean p.1 b, p.2.1, p.2.2⟩]
        | none => ws)
    []

/-- `performSemanticAnalysis`, parameterised by the built-in catalog
(`loadBuiltInFunctions()`; with the external API data file absent this
is `essentialFunctions`).  Returns `(errors, warnings)` in emission
order: pass-1 conflicts, pass-2 errors, braced-initializer errors; the
warnings are only the did-you-mean suggestions. -/
def performSemanticAnalysis (builtIns : List String) (source : String) :
    List Diag × List Diag :=
  let cleaned := scrubL source.data
  let lines := splitLinesL source.data
  let cleanedLines := splitLinesL cleaned
  let p1 := pass1 builtIns lines cleanedLines
  let p2 := pass2 builtIns p1.declaredMacros lines cleanedLines
  (p1.errors ++ p2.errors ++ badInitErrors source.data cleaned,
   suggestWarnings builtIns p1.declaredFunctions p1.declaredMacros p2.calledFunctions)

/-- Pass 1 applied to a source string (with scrubbed lines), as inside
`performSemanticAnalysis`. -/
def semanticPass1 (builtIns : List String) (source : String) : Pass1State :=
  pass1 builtIns (splitLinesL source.data) (splitLinesL (scrubL source.data))

/-- C4: in the pass-1 declared-function table, a re-declaration whose
existing entry is conditional while the current conditional depth is
positive raises no conflict; any other re-declaration raises exactly one
conflict error at the second occurrence (the `already declared` message
when both are non-conditional, the `conflicts with` message for a mixed
pair).  Concretely: the `#ifdef`/`#else` pair of `void f(){}`
declarations raises no error; two unconditional declarations raise
exactly one error at the second line; a conditional declaration followed
by an unconditional one raises exactly one conflict error at the second
line. -/
theorem claim_C4_conditional_decl_conflicts :
    (∀ (st : Pass1State) (f : String) (li : Nat) (col : Int) (e : FuncEntry),
      assocGet st.declaredFunctions f = some e →
      (registerFuncDecl st f li col).errors =
        st.errors ++
          (if e.conditional = true ∧ 0 < st.conditionalDepth then []
           else if e.conditional = false ∧ st.conditionalDepth = 0 then
             [⟨msgFuncAlready f (e.line + 1), li, col⟩]
           else [⟨msgFuncConflict f (e.line + 1), li, col⟩])) ∧
    (semanticPass1 essentialFunctions
        "#ifdef A\nvoid f(){}\n#else\nvoid f(){}\n#endif").errors = [] ∧
    (semanticPass1 essentialFunctions "void f(){}\nvoid f(){}").errors =
      [⟨msgFuncAlready "f" 1, 1, 5⟩] ∧
    (semanticPass1 essentialFunctions
        "#ifdef A\nvoid f(){}\n#endif\nvoid f(){}").errors =
      [⟨msgFuncConflict "f" 2, 3, 5⟩] := by
  refine ⟨?_, by decide, by decide, by decide⟩
  intro st f li col e hget
  rcases e with ⟨eline, econd⟩
  cases econd <;> rcases Nat.eq_zero_or_pos st.conditionalDepth with hd | hd <;>
    simp_all [registerFuncDecl, Nat.pos_iff_ne_zero, Nat.not_lt_of_lt]

theorem claim_C4_witness :
    (registerFuncDecl ⟨[("f", ⟨0, false⟩)], [], 0, []⟩ "f" 1 5).errors =
      [] ++ [⟨msgFuncAlready "f" 1, 1, 5⟩] := by
  have h := claim_C4_conditional_decl_conflicts.1
    ⟨[("f", ⟨0, false⟩)], [], 0, []⟩ "f" 1 5 ⟨0, false⟩ (by decide)
  simpa using h

/-- C5: a declarator is reported as a duplicate exactly when the CURRENT
(innermost) scope already binds the name — an entry in an enclosing
scope alone changes nothing — and the error is positioned at the new
occurrence and names the original declaration's 1-based line.
Concretely: `int x;` re-declared inside a brace block raises no error,
while `int x; int x;` in the same scope raises exactly one duplicate
error at the second occurrence referring to line 1. -/
theorem claim_C5_scope_shadowing :
    (∀ (st : Pass2State) (v : String) (li : Nat) (orig : List Char)
       (existing : VarInfo),
      assocGet (currentScope st.scopes) v = some existing →
      0 ≤ indexOfSub v.data orig →
      declareVarName st v li orig =
        { st with errors := st.errors ++
            [⟨msgVarAlready v (existing.line + 1), li, indexOfSub v.data orig⟩] }) ∧
    (∀ (st : Pass2State) (v : String) (li : Nat) (orig : List Char),
      assocGet (currentScope st.scopes) v = none →
      (declareVarName st v li orig).errors = st.errors) ∧
    (performSemanticAnalysis essentialFunctions "int x;\n\x7b\nint x;\n\x7d").1 = [] ∧
    (performSemanticAnalysis essentialFunctions "int x;\nint x;").1 =
      [⟨msgVarAlready "x" 1, 1, 4⟩] := by
  refine ⟨?_, ?_, by decide, by decide⟩
  · intro st v li orig existing hget hcol
    simp [declareVarName, hcol, hget]
  · intro st v li orig hget
    simp only [declareVarName, hget]
    split_ifs <;> simp

theorem claim_C5_witness :
    declareVarName ⟨[[("x", ⟨0, 4, false⟩)]], 0, false, [], []⟩ "x" 1 "int x;".data =
      { (⟨[[("x", ⟨0, 4, false⟩)]], 0, false, [], []⟩ : Pass2State) with
          errors := [] ++ [⟨msgVarAlready "x" 1, 1, 4⟩] } := by
  have h := claim_C5_scope_shadowing.1
    ⟨[[("x", ⟨0, 4, false⟩)]], 0, false, [], []⟩ "x" 1 "int x;".data
    ⟨0, 4, false⟩ (by decide) (by decide)
  simpa using h

/-- The case-insensitive distance of `nm` to a catalog entry. -/
def catDist (nm c : String) : Nat :=
  levenshtein (lowerS nm).data (lowerS c).data

/-- The best-match loop, started from an accumulator, returns a pair
whose distance is the minimum of the accumulator's distance and all
remaining candidates' distances, attained either by the accumulator or
by a candidate. -/
theorem bestMatchAux_spec (nm : String) (cs : List String) :
    ∀ (b0 : String) (d0 : Nat),
      ∃ b d, bestMatchAux nm cs (some (b0, d0)) = some (b, d) ∧
        d ≤ d0 ∧ (∀ c ∈ cs, d ≤ catDist nm c) ∧
        ((b = b0 ∧ d = d0) ∨ (b ∈ cs ∧ d = catDist nm b)) := by
  induction cs with
  | nil =>
    intro b0 d0
    exact ⟨b0, d0, rfl, le_refl _, by simp, Or.inl ⟨rfl, rfl⟩⟩
  | cons c cs ih =>
    intro b0 d0
    have hunf : bestMatchAux nm (c :: cs) (some (b0, d0)) =
        bestMatchAux nm cs
          (if catDist nm c < d0 then some (c, catDist nm c) else some (b0, d0)) := by
      simp only [bestMatchAux, catDist]
    by_cases hlt : catDist nm c < d0
    · obtain ⟨b, d, heq, hle, hall, hor⟩ := ih c (catDist nm c)
      refine ⟨b, d, ?_, le_of_lt (lt_of_le_of_lt hle hlt), ?_, ?_⟩
      · rw [hunf, if_pos hlt]; exact heq
      · intro c' hc'
        rw [List.mem_cons] at hc'
        rcases hc' with rfl | hc'
        · exact hle
        · exact hall c' hc'
      · rcases hor with ⟨rfl, rfl⟩ | ⟨hb, hd⟩
        · exact Or.inr ⟨List.mem_cons_self _ _, rfl⟩
        · exact Or.inr ⟨List.mem_cons_of_mem _ hb, hd⟩
    · obtain ⟨b, d, heq, hle, hall, hor⟩ := ih b0 d0
      refine ⟨b, d, ?_, hle, ?_, ?_⟩
      · rw [hunf, if_neg hlt]; exact heq
      · intro c' hc'
        rw [List.mem_cons] at hc'
        rcases hc' with rfl | hc'
        · exact le_trans hle (le_of_not_lt hlt)
        · exact hall c' hc'
      · rcases hor with h | ⟨hb, hd⟩
        · exact Or.inl h
        · exact Or.inr ⟨List.mem_cons_of_mem _ hb, hd⟩

/-- On a non-empty catalog the loop returns a first minimizer. -/
theorem bestMatchAux_min (nm : String) (c0 : String) (cs : List String) :
    ∃ b d, bestMatchAux nm (c0 :: cs) none = some (b, d) ∧
      b ∈ c0 :: cs ∧ d = catDist nm b ∧
      ∀ c ∈ c0 :: cs, d ≤ catDist nm c := by
  obtain ⟨b, d, heq, hle, hall, hor⟩ := bestMatchAux_spec nm cs c0 (catDist nm c0)
  have hstart : bestMatchAux nm (c0 :: cs) none =
      bestMatchAux nm cs (some (c0, catDist nm c0)) := by
    simp [bestMatchAux, catDist]
  refine ⟨b, d, hstart ▸ heq, ?_, ?_, ?_⟩
  · rcases hor with ⟨rfl, _⟩ | ⟨hb, _⟩
    · exact List.mem_cons_self _ _
    · exact List.mem_cons_of_mem _ hb
  · rcases hor with ⟨rfl, rfl⟩ | ⟨_, hd⟩
    · rfl
    · exact hd
  · intro c hc
    rw [List.mem_cons] at hc
    rcases hc with rfl | hc
    · exact hle
    · exact hall c hc

set_option maxRecDepth 40000 in
/-- C8: for a non-empty catalog, the did-you-mean computation produces a
suggestion for a name if and only if some catalog entry lies within the
length-scaled threshold (1 for names of length at most 4, else 2) of the
name's minimum case-insensitive edit distance; any produced suggestion
is a catalog entry of minimum distance.  Concretely, with the essential
catalog: calling `OnFwdd(OUT_A, 75)` yields exactly one warning
suggesting `OnFwd` and no error, and calling the dissimilar `Zzzqqq(1)`
yields no diagnostic at all. -/
theorem claim_C8_suggestion_threshold :
    (∀ (catalog : List String) (nm : String), catalog ≠ [] →
      ((suggestFor catalog nm).isSome ↔
        ∃ c ∈ catalog, catDist nm c ≤ threshold nm)) ∧
    (∀ (catalog : List String) (nm b : String), suggestFor catalog nm = some b →
      b ∈ catalog ∧ ∀ c ∈ catalog, catDist nm b ≤ catDist nm c) ∧
    performSemanticAnalysis essentialFunctions "OnFwdd(OUT_A, 75);" =
      ([], [⟨msgDidYouMean "OnFwdd" "OnFwd", 0, 0⟩]) ∧
    performSemanticAnalysis essentialFunctions "Zzzqqq(1);" = ([], []) := by
  refine ⟨?_, ?_, by decide, by decide⟩
  · intro catalog nm hne
    match catalog, hne with
    | c0 :: cs, _ =>
      obtain ⟨b, d, heq, hb, hd, hmin⟩ := bestMatchAux_min nm c0 cs
      constructor
      · intro hsome
        simp only [suggestFor, heq] at hsome
        by_cases ht : d ≤ threshold nm
        · exact ⟨b, hb, hd ▸ ht⟩
        · simp [ht] at hsome
      · rintro ⟨c, hc, hct⟩
        simp only [suggestFor, heq]
        have : d ≤ threshold nm := le_trans (hmin c hc) hct
        simp [this]
  · intro catalog nm b hsome
    match catalog with
    | [] => simp [suggestFor, bestMatchAux] at hsome
    | c0 :: cs =>
      obtain ⟨b', d, heq, hb', hd, hmin⟩ := bestMatchAux_min nm c0 cs
      simp only [suggestFor, heq] at hsome
      by_cases ht : d ≤ threshold nm
      · simp only [if_pos ht] at hsome
        obtain rfl : b' = b := by simpa using hsome
        exact ⟨hb', fun c hc => hd ▸ hmin c hc⟩
      · simp [ht] at hsome

set_option maxRecDepth 40000 in
theorem claim_C8_witness :
    (suggestFor essentialFunctions "OnFwdd").isSome = true ∧
    suggestFor essentialFunctions "OnFwdd" = some "OnFwd" := by
  constructor
  · exact (claim_C8_suggestion_threshold.1 essentialFunctions "OnFwdd"
      (by decide)).mpr ⟨"OnFwd", by decide, by decide⟩
  · decide

/-! ## 4. `validateSyntax`: the top-level try/catch wrapper

`validateSyntax` runs `analyzeBasicSyntax` inside a `try`; the analysis
either completes, leaving the accumulated error and warning lists, or
throws.  The fallible body is modelled as an `Except` value: `ok` carries
the accumulated `(errors, warnings)`, `error` carries the exception
message. -/

structure AnalysisResult where
  isValid : Bool
  errors : List Diag
  warnings : List Diag
deriving DecidableEq, Repr

def msgInternalError (m : String) : String := "Internal error: " ++ m

def validateSyntax (outcome : Except String (List Diag × List Diag)) :
    AnalysisResult :=
  match outcome with
  | .ok (es, ws) => ⟨es.isEmpty, es, ws⟩
  | .error m => ⟨false, [⟨msgInternalError m, 0, 0⟩], []⟩

/-- C9: whatever exception message reaches the top-level catch,
`validateSyntax` returns a well-formed result instead of propagating it:
`isValid` is false, the warnings list is empty, and the errors list is
exactly one synthetic `Internal error` diagnostic at line 0, column 0. -/
theorem claim_C9_internal_error_result (m : String) :
    (validateSyntax (Except.error m)).isValid = false ∧
    (validateSyntax (Except.error m)).warnings = [] ∧
    (validateSyntax (Except.error m)).errors = [⟨msgInternalError m, 0, 0⟩] :=
  ⟨rfl, rfl, rfl⟩

/-! ## 5. `checkLinePatterns`: per-line pattern checks (C10) -/

def msgUnterminatedChar : String := "Unterminated character literal"

def msgUnterminatedString : String := "Unterminated string literal"

def msgUnterminatedStringBC : String := "Unterminated string literal before comment"

def msgLineTooLong : String := "Line too long (>120 characters)"

def msgMixedTabs : String := "Mixed tabs and spaces for indentation"

def msgMissingSemicolon : String := "Possible missing semicolon"

/-- `shouldHaveSemicolon`: after the long exclusion list the function
unconditionally returns `false` ("Currently disabled" in the source), so
it is the constantly-false predicate. -/
def shouldHaveSemicolon (_ : List Char) : Bool := false

/-- `checkUnterminatedStrings`: scan the raw line tracking string state;
a `//` inside a string reports `before comment`, a `//` outside stops
the scan, an open string at end of line reports at the opening quote. -/
def checkUnterminatedStringsAux (li : Nat) :
    List Char → Nat → Bool → Bool → Int → List Diag
  | [], _, inString, _, stringStart =>
    if inString && decide (0 ≤ stringStart) then
      [⟨msgUnterminatedString, li, stringStart⟩]
    else []
  | c :: cs, i, inString, escaped, stringStart =>
    if escaped then
      checkUnterminatedStringsAux li cs (i + 1) inString false stringStart
    else if c = '\\' && inString then
      checkUnterminatedStringsAux li cs (i + 1) inString true stringStart
    else if inString && c = '/' && cs.head? = some '/' then
      [⟨msgUnterminatedStringBC, li, stringStart⟩]
    else if !inString && c = '/' && cs.head? = some '/' then
      []
    else if c = '"' then
      if inString then
        checkUnterminatedStringsAux li cs (i + 1) false escaped (-1)
      else
        checkUnterminatedStringsAux li cs (i + 1) true escaped (i : Int)
    else
      checkUnterminatedStringsAux li cs (i + 1) inString escaped stringStart

def checkUnterminatedStrings (li : Nat) (line : List Char) : List Diag :=
  checkUnterminatedStringsAux li line 0 false false (-1)

/-- `checkLinePatterns`: returns `(errors, warnings)` for one raw line.
Lines that are blank after trimming or start with `//`, `/*` or `*` are
skipped entirely.  The character-literal check is a bare parity count of
apostrophes in the trimmed raw line. -/
def checkLinePatterns (line : List Char) (li : Nat) : List Diag × List Diag :=
  let trimmed := trimL line
  if "//".data.isPrefixOf trimmed || "/*".data.isPrefixOf trimmed ||
      "*".data.isPrefixOf trimmed || trimmed = [] then ([], [])
  else
    let warns :=
      (if shouldHaveSemicolon trimmed then
        [⟨msgMissingSemicolon, li, (line.length : Int)⟩] else []) ++
      (if 120 < line.length then [⟨msgLineTooLong, li, 120⟩] else []) ++
      (let lead := line.takeWhile (fun c => c = '\t' || c = ' ')
       if lead ≠ [] && lead.contains '\t' && lead.contains ' ' then
        [⟨msgMixedTabs, li, 0⟩] else [])
    let strErrs := checkUnterminatedStrings li line
    let charErrs :=
      if trimmed.count '\'' % 2 = 1 then
        [⟨msgUnterminatedChar, li, indexOfChar '\'' trimmed⟩]
      else []
    (strErrs ++ charErrs, warns)

/-- Every diagnostic of `checkUnterminatedStrings` carries one of the two
string messages, never the character-literal message. -/
theorem checkUnterminatedStrings_messages (li : Nat) :
    ∀ (l : List Char) (i : Nat) (inString escaped : Bool) (stringStart : Int),
      ∀ d ∈ checkUnterminatedStringsAux li l i inString escaped stringStart,
        d.message = msgUnterminatedString ∨ d.message = msgUnterminatedStringBC := by
  intro l
  induction l with
  | nil =>
    intro i inString escaped stringStart d hd
    simp only [checkUnterminatedStringsAux] at hd
    split_ifs at hd <;> simp_all
  | cons c cs ih =>
    intro i inString escaped stringStart d hd
    simp only [checkUnterminatedStringsAux] at hd
    split_ifs at hd <;> first
      | exact ih _ _ _ _ d hd
      | simp_all

/-- C10: for every raw line that survives the skip guard (non-blank after
trimming; not starting with `//`, `/*` or `*`), `checkLinePatterns`
emits the `Unterminated character literal` error exactly when the
trimmed line contains an odd number of apostrophe characters — the count
is taken on the raw trimmed text, so apostrophes inside string literals
and trailing `//` comments are included, and the error is positioned at
the first apostrophe. -/
theorem claim_C10_char_literal_parity (line : List Char) (li : Nat)
    (hne : trimL line ≠ [])
    (h1 : ¬("//".data.isPrefixOf (trimL line) = true))
    (h2 : ¬("/*".data.isPrefixOf (trimL line) = true))
    (h3 : ¬("*".data.isPrefixOf (trimL line) = true)) :
    (checkLinePatterns line li).1.filter
        (fun d => d.message = msgUnterminatedChar) =
      (if (trimL line).count '\'' % 2 = 1 then
        [⟨msgUnterminatedChar, li, indexOfChar '\'' (trimL line)⟩]
      else []) := by
  have hguard : ("//".data.isPrefixOf (trimL line) ||
      "/*".data.isPrefixOf (trimL line) || "*".data.isPrefixOf (trimL line) ||
      decide (trimL line = [])) = false := by
    simp only [Bool.or_eq_false_iff]
    exact ⟨⟨⟨Bool.eq_false_iff.mpr h1, Bool.eq_false_iff.mpr h2⟩,
      Bool.eq_false_iff.mpr h3⟩, decide_eq_false hne⟩
  simp only [checkLinePatterns]
  rw [if_neg (by rw [hguard]; simp)]
  simp only [List.filter_append]
  have hstr : (checkUnterminatedStrings li line).filter
      (fun d => d.message = msgUnterminatedChar) = [] := by
    rw [List.filter_eq_nil_iff]
    intro d hd
    rcases checkUnterminatedStrings_messages li line 0 false false (-1) d hd with h | h <;>
      simp [h, msgUnterminatedChar, msgUnterminatedString, msgUnterminatedStringBC]
  rw [hstr]
  split_ifs with hodd <;> simp [msgUnterminatedChar]

theorem claim_C10_witness :
    (checkLinePatterns "TextOut(0, 0, \"it\x27s\");".data 0).1.filter
        (fun d => d.message = msgUnterminatedChar) =
      [⟨msgUnterminatedChar, 0, 17⟩] ∧
    (checkLinePatterns "int x; // don\x27t".data 0).1.filter
        (fun d => d.message = msgUnterminatedChar) =
      [⟨msgUnterminatedChar, 0, 13⟩] := by
  constructor
  · have h := claim_C10_char_literal_parity "TextOut(0, 0, \"it\x27s\");".data 0
      (by decide) (by decide) (by decide) (by decide)
    simpa using h
  · have h := claim_C10_char_literal_parity "int x; // don\x27t".data 0
      (by decide) (by decide) (by decide) (by decide)
    simpa using h

end Nxc
